import Mathlib

/-!
Shallow embedding of the SOLPED versus OC dashboard pipeline
(src/dashboard_solped_oc.py).

A pandas DataFrame is modelled as a header (list of column names) together
with a list of rows; every cell is kept as the string produced by the
pandas astype(str) conversion. Column access by label is modelled by the
index of the first matching header entry; a missing label is the pandas
KeyError, and indexing past the end of the raw grid (raw.iloc[2] on a grid
with fewer than three rows) is the pandas IndexError.
-/

deriving instance DecidableEq for Except

namespace Solped

/-- Whitespace characters removed by the Python str.strip method. -/
def isPySpace (c : Char) : Bool :=
  c == ' ' || c == '\t' || c == '\n' || c == '\r' || c == '\x0b' || c == '\x0c'

/-- The Python str.strip method: remove leading and trailing whitespace. -/
def pyStrip (s : String) : String :=
  ⟨((s.data.dropWhile isPySpace).reverse.dropWhile isPySpace).reverse⟩

/-- A named-field tabular dataset: pandas DataFrame with string cells. -/
structure Dataset where
  header : List String
  rows : List (List String)
deriving DecidableEq, Repr

/-- Errors surfaced by the local ingestion path: `indexError` is the pandas
IndexError raised by raw.iloc on a too-short grid (the MalformedGridError of
the design), `keyError` is the pandas KeyError on a missing column label
(the MissingColumnError of the design). -/
inductive LoadError where
  | indexError
  | keyError
deriving DecidableEq, Repr

/-- Cell access at a column index; pandas frames are rectangular, a missing
cell reads as the empty string. -/
def getCell (r : List String) (i : Nat) : String := r.getD i ""

/-- Index of the first header entry equal to the given label. -/
def colIdxAux (name : String) : List String → Option Nat
  | [] => none
  | s :: rest => if s = name then some 0 else (colIdxAux name rest).map (· + 1)

/-- Column lookup by label on a dataset (pandas label indexing). -/
def colIdx (d : Dataset) (name : String) : Option Nat := colIdxAux name d.header

/-- Values of a column, in row order; empty when the label is absent. -/
def colValues (d : Dataset) (name : String) : List String :=
  match colIdx d name with
  | some i => d.rows.map (fun r => getCell r i)
  | none => []

/-- Row filter keeping the rows whose cell in the named column equals the
given value (the pattern data[data[name] == val]). -/
def filterEq (d : Dataset) (name val : String) : Dataset :=
  match colIdx d name with
  | some i => ⟨d.header, d.rows.filter (fun r => getCell r i == val)⟩
  | none => d

/-- Row filter keeping the rows whose cell in the named column is a member
of the selection (the pattern data[data[name].isin(sel)]). -/
def filterIn (d : Dataset) (name : String) (sel : List String) : Dataset :=
  match colIdx d name with
  | some i => ⟨d.header, d.rows.filter (fun r => sel.contains (getCell r i))⟩
  | none => d

/-- The sentinel strings marking an absent purchase document
(line 84 of the source). -/
def SENTINELS : List String := ["(en blanco)", "nan", "", "None"]

/-- Status derived from an already-trimmed Doc.Compra value: the isin mask
mapped through the dictionary at line 85 of the source. -/
def statusOf (t : String) : String :=
  if t ∈ SENTINELS then "Sin OC" else "Con OC"

/-- Per-row effect of the classification block when the dataset has no
Tiene OC column yet: the Doc.Compra cell at index i is replaced by its
trimmed value and the derived status is appended as a new last cell. -/
def classifyRowApp (i : Nat) (r : List String) : List String :=
  let t := pyStrip (getCell r i)
  r.set i t ++ [statusOf t]

/-- Per-row effect of the classification block when a Tiene OC column
already exists at index j: the status overwrites the cell at j. -/
def classifyRowSet (i j : Nat) (r : List String) : List String :=
  let t := pyStrip (getCell r i)
  (r.set i t).set j (statusOf t)

/-- The classification block of lines 82 to 85 (and its copies at lines
132 to 134 and 217 to 219): trim the Doc.Compra column in place, then
assign the Tiene OC column from the sentinel membership mask. A pandas
column assignment replaces an existing column and appends a new one
otherwise. When Doc.Compra is absent this function is never reached by the
source (its callers guard or raise first) and it returns the dataset. -/
def addStatusCol (d : Dataset) : Dataset :=
  match colIdx d "Doc.Compra" with
  | none => d
  | some i =>
    match colIdx d "Tiene OC" with
    | some j => ⟨d.header, d.rows.map (classifyRowSet i j)⟩
    | none => ⟨d.header ++ ["Tiene OC"], d.rows.map (classifyRowApp i)⟩

/-- Lines 76 to 80 of load_solped_data: read the grid headerless, take row
index 2 as the header and the rows from index 3 on as the data. raw.iloc[2]
raises IndexError when the grid has fewer than 3 rows. -/
def normalizeHeader (raw : List (List String)) : Except LoadError Dataset :=
  if raw.length < 3 then .error .indexError
  else .ok ⟨raw.getD 2 [], raw.drop 3⟩

/-- Lines 82 to 85 of load_solped_data: accessing data[Doc.Compra] raises
KeyError when the column is absent, otherwise the status column is added. -/
def classifyDatasetE (d : Dataset) : Except LoadError Dataset :=
  match colIdx d "Doc.Compra" with
  | none => .error .keyError
  | some _ => .ok (addStatusCol d)

/-- load_solped_data (lines 55 to 86): header normalization followed by
status classification. -/
def load_solped_data (raw : List (List String)) : Except LoadError Dataset :=
  (normalizeHeader raw).bind classifyDatasetE

/-- load_solped_from_google (lines 89 to 135). The network fetch and CSV
parse are modelled by an oracle giving the outcome of each successive
attempt; the function performs the single attempt numbered 0. Any failure
collapses to none; on success the status column is added only when a
Doc.Compra column is present, otherwise the parsed table is returned
as is. -/
def load_solped_from_google (fetch : Nat → Except String Dataset) : Option Dataset :=
  match fetch 0 with
  | .error _ => none
  | .ok data =>
    some (if (colIdx data "Doc.Compra").isSome then addStatusCol data else data)

/-- Lines 216 to 219 of main: classify only when the Tiene OC column is
absent and a Doc.Compra column is present. -/
def ensure_status (d : Dataset) : Dataset :=
  if "Tiene OC" ∉ d.header ∧ "Doc.Compra" ∈ d.header then addStatusCol d else d

/-- compute_metrics (lines 138 to 151): total row count and the counts of
the two status values; reading the Tiene OC column of a dataset lacking it
raises KeyError. -/
def compute_metrics (d : Dataset) : Except LoadError (Nat × Nat × Nat) :=
  match colIdx d "Tiene OC" with
  | none => .error .keyError
  | some j =>
    let col := d.rows.map (fun r => getCell r j)
    .ok (d.rows.length,
      (col.filter (fun v => v == "Con OC")).length,
      (col.filter (fun v => v == "Sin OC")).length)

/-- Lines 249 to 250 of main: the requester filter applies only when the
Solicitante column exists and the selection is non-empty. -/
def requesterStep (d : Dataset) (sel : List String) : Dataset :=
  if "Solicitante" ∈ d.header ∧ sel ≠ [] then filterIn d "Solicitante" sel else d

/-- Lines 251 to 252 of main: the center filter applies only when the
Centro column exists and the selection is non-empty. -/
def centroStep (d : Dataset) (sel : List String) : Dataset :=
  if "Centro" ∈ d.header ∧ sel ≠ [] then filterIn d "Centro" sel else d

/-- Lines 253 to 254 of main: the status filter applies unless the choice
is Todos; it reads the Tiene OC column. -/
def statusStep (d : Dataset) (estado : String) : Except LoadError Dataset :=
  if estado ≠ "Todos" then
    match colIdx d "Tiene OC" with
    | none => .error .keyError
    | some j => .ok ⟨d.header, d.rows.filter (fun r => getCell r j == estado)⟩
  else .ok d

/-- Lines 248 to 254 of main: the three filter dimensions applied in
order to a copy of the dataset. -/
def applyFilters (d : Dataset) (selSolic selCentro : List String)
    (estado : String) : Except LoadError Dataset :=
  statusStep (centroStep (requesterStep d selSolic) selCentro) estado


/-! ## Supporting lemmas -/

theorem colIdxAux_eq_none_iff (name : String) (l : List String) :
    colIdxAux name l = none ↔ name ∉ l := by
  induction l with
  | nil => simp [colIdxAux]
  | cons s rest ih =>
    by_cases h : s = name
    · subst h; simp [colIdxAux]
    · simp [colIdxAux, h, ih, List.mem_cons]
      intro hn
      exact fun he => h he.symm

theorem colIdx_isSome_of_mem (d : Dataset) (name : String) (h : name ∈ d.header) :
    ∃ i, colIdx d name = some i := by
  cases hc : colIdx d name with
  | none =>
    exact absurd ((colIdxAux_eq_none_iff name d.header).mp hc) (not_not_intro h)
  | some i => exact ⟨i, rfl⟩

theorem colIdx_eq_none_of_not_mem (d : Dataset) (name : String) (h : name ∉ d.header) :
    colIdx d name = none :=
  (colIdxAux_eq_none_iff name d.header).mpr h

theorem filter_two_partition (l : List String)
    (h : ∀ v ∈ l, v = "Con OC" ∨ v = "Sin OC") :
    (l.filter (fun v => v == "Con OC")).length
      + (l.filter (fun v => v == "Sin OC")).length = l.length := by
  induction l with
  | nil => simp
  | cons a t ih =>
    have ha := h a (by simp)
    have ht : ∀ v ∈ t, v = "Con OC" ∨ v = "Sin OC" := fun v hv => h v (by simp [hv])
    have hih := ih ht
    rcases ha with ha | ha <;> subst ha <;>
      simp [List.filter_cons] <;> omega

/-! ## Claim theorems -/

/-- C1: a record is classified Sin OC (WithoutPO) iff its stringified,
stripped Doc.Compra value is exactly one of "(en blanco)", "nan", "", "None";
otherwise Con OC (WithPO). Membership is exact and case sensitive, with no
normalization beyond the strip. The last conjunct ties the per record status
cell produced by the classification block to this rule. -/
theorem c1_status_sentinel_iff (s : String) (d : Dataset) (i : Nat)
    (hdc : colIdx d "Doc.Compra" = some i) (hto : colIdx d "Tiene OC" = none) :
    (statusOf (pyStrip s) = "Sin OC" ↔
      pyStrip s ∈ ["(en blanco)", "nan", "", "None"]) ∧
    (pyStrip s ∉ ["(en blanco)", "nan", "", "None"] →
      statusOf (pyStrip s) = "Con OC") ∧
    (addStatusCol d).rows.map List.getLast? =
      d.rows.map (fun r => some (statusOf (pyStrip (getCell r i)))) := by
  have key : ∀ t : String, (statusOf t = "Sin OC" ↔
      t ∈ ["(en blanco)", "nan", "", "None"]) ∧
      (t ∉ ["(en blanco)", "nan", "", "None"] → statusOf t = "Con OC") := by
    intro t
    by_cases hc : t ∈ SENTINELS
    · refine ⟨⟨fun _ => by simpa [SENTINELS] using hc, fun _ => by simp [statusOf, hc]⟩, ?_⟩
      intro hn
      exact absurd (by simpa [SENTINELS] using hc) hn
    · refine ⟨⟨fun hs => ?_, fun hm => absurd (by simpa [SENTINELS] using hm) hc⟩,
        fun _ => by simp [statusOf, hc]⟩
      rw [statusOf, if_neg hc] at hs
      exact absurd hs (by decide)
  refine ⟨(key (pyStrip s)).1, (key (pyStrip s)).2, ?_⟩
  simp [addStatusCol, hdc, hto, classifyRowApp, Function.comp]

/-- Witness for C1 at a concrete record: a dataset whose Doc.Compra value is
" nan " classifies to Sin OC, and the sentinel membership facts hold. -/
theorem c1_status_sentinel_iff_witness :
    (statusOf (pyStrip "PO-55") = "Sin OC" ↔
      pyStrip "PO-55" ∈ ["(en blanco)", "nan", "", "None"]) ∧
    (addStatusCol ⟨["Doc.Compra"], [[" nan "]]⟩).rows.map List.getLast? =
      [some "Sin OC"] := by
  have h := c1_status_sentinel_iff "PO-55" ⟨["Doc.Compra"], [[" nan "]]⟩ 0
    (by decide) (by decide)
  refine ⟨h.1, ?_⟩
  have h3 := (c1_status_sentinel_iff "PO-55" ⟨["Doc.Compra"], [[" nan "]]⟩ 0
    (by decide) (by decide)).2.2
  rw [h3]
  decide

/-- C2: on a classified dataset (Tiene OC column present, every status value
one of the two class labels) compute_metrics returns the triple of the total
row count and the two class counts, the class counts add up to the total,
and the empty dataset yields the triple of zeros; no error is raised. -/
theorem c2_compute_metrics_total (d : Dataset) (j : Nat)
    (h1 : colIdx d "Tiene OC" = some j)
    (h2 : ∀ r ∈ d.rows, getCell r j = "Con OC" ∨ getCell r j = "Sin OC") :
    compute_metrics d =
      Except.ok (d.rows.length,
        ((d.rows.map (fun r => getCell r j)).filter (fun v => v == "Con OC")).length,
        ((d.rows.map (fun r => getCell r j)).filter (fun v => v == "Sin OC")).length) ∧
    ((d.rows.map (fun r => getCell r j)).filter (fun v => v == "Con OC")).length
      + ((d.rows.map (fun r => getCell r j)).filter (fun v => v == "Sin OC")).length
      = d.rows.length ∧
    (d.rows = [] → compute_metrics d = Except.ok (0, 0, 0)) := by
  have hpart : ((d.rows.map (fun r => getCell r j)).filter (fun v => v == "Con OC")).length
      + ((d.rows.map (fun r => getCell r j)).filter (fun v => v == "Sin OC")).length
      = (d.rows.map (fun r => getCell r j)).length := by
    apply filter_two_partition
    intro v hv
    rcases List.mem_map.mp hv with ⟨r, hr, hrv⟩
    rw [← hrv]
    exact h2 r hr
  refine ⟨?_, ?_, ?_⟩
  · simp [compute_metrics, h1]
  · simpa using hpart
  · intro hemp
    simp [compute_metrics, h1, hemp]

/-- Witness for C2: the two record classified dataset of the spec scenario
yields the metrics triple (2, 1, 1) with 1 + 1 = 2. -/
theorem c2_compute_metrics_total_witness :
    compute_metrics ⟨["Tiene OC"], [["Sin OC"], ["Con OC"]]⟩ =
      Except.ok (2, 1, 1) ∧ 1 + 1 = 2 := by
  have h := c2_compute_metrics_total ⟨["Tiene OC"], [["Sin OC"], ["Con OC"]]⟩ 0
    (by decide) (by decide)
  refine ⟨?_, rfl⟩
  rw [h.1]
  decide

/-- C3: an empty requester selection leaves the requester dimension
unconstrained, an empty center selection likewise, and with no other active
constraint the filter engine returns every record of the dataset. -/
theorem c3_empty_selection_passes (d : Dataset) :
    requesterStep d [] = d ∧ centroStep d [] = d ∧
    applyFilters d [] [] "Todos" = Except.ok d := by
  refine ⟨?_, ?_, ?_⟩ <;>
    simp [requesterStep, centroStep, applyFilters, statusStep]

/-- C4 counterexample: a grid with three rows, hence fewer than four, on
which load_solped_data succeeds with an empty dataset instead of failing
with the malformed grid IndexError. -/
theorem c4_three_row_grid_loads :
    ([["x"], ["y"], ["Doc.Compra"]] : List (List String)).length < 4 ∧
    load_solped_data [["x"], ["y"], ["Doc.Compra"]] =
      Except.ok ⟨["Doc.Compra", "Tiene OC"], []⟩ := by
  decide

/-- C4 amended: local ingestion fails with the malformed grid IndexError
exactly on grids with fewer than three rows; for three or more rows that
error is never raised (the load then either succeeds or fails with the
distinct missing column KeyError). -/
theorem c4_malformed_grid_iff (raw : List (List String)) :
    load_solped_data raw = Except.error LoadError.indexError ↔ raw.length < 3 := by
  unfold load_solped_data normalizeHeader
  by_cases h : raw.length < 3
  · simp [h, Except.bind]
  · simp only [h, if_false, Except.bind]
    unfold classifyDatasetE
    cases hc : colIdx ⟨raw.getD 2 [], raw.drop 3⟩ "Doc.Compra" <;> simp [hc, h]

/-- C5: with at least three rows, header normalization takes row index 2 as
the header (field names in order, duplicates kept) and the rows from index 3
on as data, in order, reindexed from zero, so the row count is the grid row
count minus three; when row 2 is exactly SOLPED, Doc.Compra the full load
succeeds, the first field is SOLPED and the row count is the grid row count
minus three. -/
theorem c5_header_offset (raw : List (List String)) (h : 3 ≤ raw.length) :
    normalizeHeader raw = Except.ok ⟨raw.getD 2 [], raw.drop 3⟩ ∧
    (raw.drop 3).length = raw.length - 3 ∧
    (raw.getD 2 [] = ["SOLPED", "Doc.Compra"] →
      load_solped_data raw =
        Except.ok ⟨["SOLPED", "Doc.Compra", "Tiene OC"],
          (raw.drop 3).map (classifyRowApp 1)⟩ ∧
      (["SOLPED", "Doc.Compra", "Tiene OC"] : List String).head? = some "SOLPED" ∧
      ((raw.drop 3).map (classifyRowApp 1)).length = raw.length - 3) := by
  have hn : ¬raw.length < 3 := by omega
  refine ⟨by simp [normalizeHeader, hn], by simp, ?_⟩
  intro hrow
  refine ⟨?_, rfl, by simp⟩
  unfold load_solped_data normalizeHeader
  simp only [hn, if_false, Except.bind]
  unfold classifyDatasetE
  rw [hrow]
  have hdc : colIdx ⟨["SOLPED", "Doc.Compra"], raw.drop 3⟩ "Doc.Compra" = some 1 := by
    show colIdxAux "Doc.Compra" ["SOLPED", "Doc.Compra"] = some 1
    decide
  have hto : colIdx ⟨["SOLPED", "Doc.Compra"], raw.drop 3⟩ "Tiene OC" = none := by
    show colIdxAux "Tiene OC" ["SOLPED", "Doc.Compra"] = none
    decide
  simp [hdc, addStatusCol, hto]

/-- Witness for C5 on a concrete five row grid: two blank rows, the header
row, and two data rows give a two record dataset led by the SOLPED field. -/
theorem c5_header_offset_witness :
    normalizeHeader [[], [], ["SOLPED", "Doc.Compra"], ["1001", "(en blanco)"], ["1002", "PO-55"]] =
      Except.ok ⟨["SOLPED", "Doc.Compra"], [["1001", "(en blanco)"], ["1002", "PO-55"]]⟩ ∧
    load_solped_data [[], [], ["SOLPED", "Doc.Compra"], ["1001", "(en blanco)"], ["1002", "PO-55"]] =
      Except.ok ⟨["SOLPED", "Doc.Compra", "Tiene OC"],
        [["1001", "(en blanco)", "Sin OC"], ["1002", "PO-55", "Con OC"]]⟩ := by
  have h := c5_header_offset
    [[], [], ["SOLPED", "Doc.Compra"], ["1001", "(en blanco)"], ["1002", "PO-55"]]
    (by decide)
  have h3 := h.2.2 (by decide)
  refine ⟨?_, ?_⟩
  · rw [h.1]
    decide
  · rw [h3.1]
    decide

/-- C8: the classification step of main is guarded by the column existence
check, so a dataset already carrying the Tiene OC column is returned
unchanged, and the step is idempotent. -/
theorem c8_ensure_status_idempotent :
    (∀ d : Dataset, "Tiene OC" ∈ d.header → ensure_status d = d) ∧
    (∀ d : Dataset, ensure_status (ensure_status d) = ensure_status d) := by
  have part1 : ∀ d : Dataset, "Tiene OC" ∈ d.header → ensure_status d = d := by
    intro d h
    simp [ensure_status, h]
  refine ⟨part1, ?_⟩
  intro d
  by_cases hc : "Tiene OC" ∉ d.header ∧ "Doc.Compra" ∈ d.header
  · have h1 : ensure_status d = addStatusCol d := by
      rw [ensure_status, if_pos hc]
    rw [h1]
    apply part1
    rcases colIdx_isSome_of_mem d "Doc.Compra" hc.2 with ⟨i, hi⟩
    have hto : colIdx d "Tiene OC" = none := colIdx_eq_none_of_not_mem d _ hc.1
    simp [addStatusCol, hi, hto]
  · have h1 : ensure_status d = d := by rw [ensure_status, if_neg hc]
    rw [h1]
    exact h1

/-- Witness for C8: a dataset already carrying the Tiene OC column is left
unchanged by the classification step of main. -/
theorem c8_ensure_status_idempotent_witness :
    ensure_status ⟨["Doc.Compra", "Tiene OC"], [["nan", "Sin OC"]]⟩ =
      ⟨["Doc.Compra", "Tiene OC"], [["nan", "Sin OC"]]⟩ := by
  exact c8_ensure_status_idempotent.1 ⟨["Doc.Compra", "Tiene OC"], [["nan", "Sin OC"]]⟩
    (by decide)

/-! ## Dates and the analysis section aggregations -/

/-- A calendar date. -/
structure Date where
  year : Nat
  month : Nat
  day : Nat
deriving DecidableEq, Repr

/-- Linearized calendar month of a date (months since year zero). -/
def monthKey (d : Date) : Nat := d.year * 12 + (d.month - 1)

/-- First day of the calendar month with the given linearized key: the
to_period followed by to_timestamp conversion of a bin label. -/
def monthStart (k : Nat) : Date := ⟨k / 12, k % 12 + 1, 1⟩

/-- Smallest of a starting key and a list of keys. -/
def keyLo (k : Nat) (ks : List Nat) : Nat := ks.foldr min k

/-- Largest of a starting key and a list of keys. -/
def keyHi (k : Nat) (ks : List Nat) : Nat := ks.foldr max k

/-- One (month start, count) pair for each of n consecutive months from
lo, counting the keys falling in each month. -/
def monthCounts (keys : List Nat) (lo n : Nat) : List (Date × Nat) :=
  (List.range n).map (fun t =>
    (monthStart (lo + t), (keys.filter (fun k => k == lo + t)).length))

/-- The pandas monthly Grouper binning followed by size and the conversion
of bin labels to first of month timestamps (lines 289 to 298 and 306 to
315): resample style bins covering every calendar month from the earliest
to the latest date, empty months included with count zero, emitted in
chronological order; the empty input gives the empty series. -/
def monthlySeries : List Date → List (Date × Nat)
  | [] => []
  | d :: ds =>
    monthCounts ((d :: ds).map monthKey)
      (keyLo (monthKey d) (ds.map monthKey))
      (keyHi (monthKey d) (ds.map monthKey) + 1 - keyLo (monthKey d) (ds.map monthKey))

/-- The Sin OC subset taken by the analysis section (line 273). -/
def missingOf (d : Dataset) : Dataset := filterEq d "Tiene OC" "Sin OC"

/-- Dates of one column of the Sin OC subset surviving datetime coercion:
to_datetime with errors coerce followed by dropna on that column; the
parse parameter stands for the pandas dayfirst date parser. -/
def survivorsOf (parse : String → Option Date) (d : Dataset) (name : String) :
    List Date :=
  (colValues (missingOf d) name).filterMap parse

/-- Monthly evolution series for one date column of the Sin OC subset,
guarded by column existence as in the source. -/
def seriesOf (parse : String → Option Date) (d : Dataset) (name : String) :
    List (Date × Nat) :=
  if name ∈ (missingOf d).header then monthlySeries (survivorsOf parse d name) else []

/-- The Fecha Mod. monthly series (lines 286 to 300). -/
def fmodSeries (parse : String → Option Date) (d : Dataset) : List (Date × Nat) :=
  seriesOf parse d "Fecha Mod."

/-- The Fecha Sol. monthly series (lines 303 to 317). -/
def fsolSeries (parse : String → Option Date) (d : Dataset) : List (Date × Nat) :=
  seriesOf parse d "Fecha Sol."

/-- Quantities of the Sin OC subset surviving numeric coercion: to_numeric
with errors coerce followed by dropna on Cantidad. -/
def qtySurvivors (parseQ : String → Option Rat) (d : Dataset) : List Rat :=
  (colValues (missingOf d) "Cantidad").filterMap parseQ

/-- Insertion into a list sorted ascending. -/
def insertRat (x : Rat) : List Rat → List Rat
  | [] => [x]
  | y :: ys => if x ≤ y then x :: y :: ys else y :: insertRat x ys

/-- Insertion sort, ascending. -/
def sortRats (l : List Rat) : List Rat := l.foldr insertRat []

/-- groupby Cantidad, size, sort_values (lines 324 to 330): one pair per
distinct quantity value, ascending, with its frequency. -/
def qtyDist (qs : List Rat) : List (Rat × Nat) :=
  (sortRats qs.dedup).map (fun v => (v, qs.count v))

/-- The quantity distribution of the Sin OC subset, guarded by column
existence as in the source (lines 320 to 333). -/
def qtyDistOf (parseQ : String → Option Rat) (d : Dataset) : List (Rat × Nat) :=
  if "Cantidad" ∈ (missingOf d).header then qtyDist (qtySurvivors parseQ d) else []

/-- The analysis section of main (lines 267 to 335) as a state passing
function: the three chart series are computed from the dataset through the
local copy named missing, and both the dataset and the filtered view are
passed through untouched. -/
def analysisBlock (parse : String → Option Date) (parseQ : String → Option Rat)
    (data filtered : Dataset) :
    Dataset × Dataset × List (Date × Nat) × List (Date × Nat) × List (Rat × Nat) :=
  (data, filtered, fmodSeries parse data, fsolSeries parse data, qtyDistOf parseQ data)

/-- C7: on any fetch or parse failure the Google sheet loader returns the
explicit no data result none instead of propagating an exception, and it
makes exactly one attempt: its result depends only on the outcome of
attempt number 0 of the fetch oracle. -/
theorem c7_google_failure_none :
    (∀ (fetch : Nat → Except String Dataset) (e : String),
      fetch 0 = Except.error e → load_solped_from_google fetch = none) ∧
    (∀ f g : Nat → Except String Dataset,
      f 0 = g 0 → load_solped_from_google f = load_solped_from_google g) := by
  constructor
  · intro fetch e h
    simp [load_solped_from_google, h]
  · intro f g h
    simp [load_solped_from_google, h]

/-- Witness for C7: a concrete failing fetch collapses to none. -/
theorem c7_google_failure_none_witness :
    load_solped_from_google (fun _ => Except.error "network failure") = none :=
  c7_google_failure_none.1 (fun _ => Except.error "network failure") "network failure" rfl

/-- C10: a successfully fetched and parsed remote table lacking the
Doc.Compra column is returned exactly as parsed, with no classification,
no added Tiene OC column and no missing column error: the structural
column check exists only on the local grid path. -/
theorem c10_remote_no_doccompra (d : Dataset) (h : "Doc.Compra" ∉ d.header)
    (fetch : Nat → Except String Dataset) (hf : fetch 0 = Except.ok d) :
    load_solped_from_google fetch = some d := by
  have hc : colIdx d "Doc.Compra" = none := colIdx_eq_none_of_not_mem d _ h
  simp [load_solped_from_google, hf, hc]

/-- Witness for C10: a table with only a SOLPED column comes back as is. -/
theorem c10_remote_no_doccompra_witness :
    load_solped_from_google (fun _ => Except.ok ⟨["SOLPED"], [["1001"]]⟩) =
      some ⟨["SOLPED"], [["1001"]]⟩ :=
  c10_remote_no_doccompra ⟨["SOLPED"], [["1001"]]⟩ (by decide) _ rfl

/-! ## Lemmas about the monthly buckets -/

theorem monthKey_monthStart (k : Nat) : monthKey (monthStart k) = k := by
  simp [monthKey, monthStart]
  omega

theorem keyLo_le (k : Nat) (ks : List Nat) :
    keyLo k ks ≤ k ∧ ∀ x ∈ ks, keyLo k ks ≤ x := by
  induction ks with
  | nil => exact ⟨Nat.le_refl k, by simp⟩
  | cons a t ih =>
    have hstep : keyLo k (a :: t) = min a (keyLo k t) := rfl
    refine ⟨?_, ?_⟩
    · rw [hstep]
      exact le_trans (Nat.min_le_right a (keyLo k t)) ih.1
    · intro x hx
      rcases List.mem_cons.mp hx with hx | hx
      · rw [hstep, hx]
        exact Nat.min_le_left a (keyLo k t)
      · rw [hstep]
        exact le_trans (Nat.min_le_right a (keyLo k t)) (ih.2 x hx)

theorem keyHi_ge (k : Nat) (ks : List Nat) :
    k ≤ keyHi k ks ∧ ∀ x ∈ ks, x ≤ keyHi k ks := by
  induction ks with
  | nil => exact ⟨Nat.le_refl k, by simp⟩
  | cons a t ih =>
    have hstep : keyHi k (a :: t) = max a (keyHi k t) := rfl
    refine ⟨?_, ?_⟩
    · rw [hstep]
      exact le_trans ih.1 (Nat.le_max_right a (keyHi k t))
    · intro x hx
      rcases List.mem_cons.mp hx with hx | hx
      · rw [hstep, hx]
        exact Nat.le_max_left a (keyHi k t)
      · rw [hstep]
        exact le_trans (ih.2 x hx) (Nat.le_max_right a (keyHi k t))

theorem sum_map_add {α : Type} (l : List α) (f g : α → Nat) :
    (l.map (fun x => f x + g x)).sum = (l.map f).sum + (l.map g).sum := by
  induction l with
  | nil => simp
  | cons a t ih => simp [ih]; omega

theorem indicator_sum (lo k : Nat) :
    ∀ n : Nat, ((List.range n).map (fun t => if k == lo + t then 1 else 0)).sum
      = if lo ≤ k ∧ k < lo + n then 1 else 0 := by
  intro n
  induction n with
  | zero =>
    rw [if_neg (by omega)]
    simp
  | succ m ih =>
    rw [List.range_succ, List.map_append, List.sum_append, ih]
    simp only [List.map_cons, List.map_nil, List.sum_cons, List.sum_nil, beq_iff_eq]
    split_ifs <;> omega

theorem monthCounts_sum (lo n : Nat) (keys : List Nat)
    (hb : ∀ x ∈ keys, lo ≤ x ∧ x < lo + n) :
    ((monthCounts keys lo n).map Prod.snd).sum = keys.length := by
  induction keys with
  | nil =>
    simp only [monthCounts, List.map_map]
    rw [List.sum_eq_zero]
    · rfl
    · intro x hx
      rcases List.mem_map.mp hx with ⟨t, _, ht⟩
      simpa [List.filter_nil] using ht.symm
  | cons k0 ks ih =>
    have hb0 := hb k0 (by simp)
    have hbks : ∀ x ∈ ks, lo ≤ x ∧ x < lo + n := fun x hx => hb x (by simp [hx])
    have hpoint : ((List.range n).map (fun t =>
        (((k0 :: ks).filter (fun k => k == lo + t)).length))) =
        ((List.range n).map (fun t =>
          (if k0 == lo + t then 1 else 0) + ((ks.filter (fun k => k == lo + t)).length))) := by
      apply List.map_congr_left
      intro t _
      rw [List.filter_cons]
      by_cases h : (k0 == lo + t) = true
      · simp [h]
        omega
      · simp [h]
    have hms : ((monthCounts (k0 :: ks) lo n).map Prod.snd) =
        (List.range n).map (fun t => (((k0 :: ks).filter (fun k => k == lo + t)).length)) := by
      simp [monthCounts, List.map_map]
    have hms2 : ((monthCounts ks lo n).map Prod.snd) =
        (List.range n).map (fun t => ((ks.filter (fun k => k == lo + t)).length)) := by
      simp [monthCounts, List.map_map]
    rw [hms, hpoint, sum_map_add, indicator_sum, if_pos hb0, ← hms2, ih hbks]
    simp
    omega

theorem monthlySeries_sum (dates : List Date) :
    ((monthlySeries dates).map Prod.snd).sum = dates.length := by
  cases dates with
  | nil => rfl
  | cons d ds =>
    rw [monthlySeries]
    have hlo := keyLo_le (monthKey d) (ds.map monthKey)
    have hhi := keyHi_ge (monthKey d) (ds.map monthKey)
    rw [monthCounts_sum]
    · simp
    · intro x hx
      rcases List.mem_map.mp hx with ⟨e, he, hex⟩
      subst hex
      rcases List.mem_cons.mp he with he | he
      · subst he
        constructor
        · exact hlo.1
        · have := hhi.1
          omega
      · have h1 := hlo.2 (monthKey e) (List.mem_map_of_mem monthKey he)
        have h2 := hhi.2 (monthKey e) (List.mem_map_of_mem monthKey he)
        have := le_trans hlo.1 hhi.1
        omega

theorem monthCounts_map_key (keys : List Nat) (lo n : Nat) :
    (monthCounts keys lo n).map (fun p => monthKey p.1) =
      (List.range n).map (fun t => lo + t) := by
  simp [monthCounts, List.map_map, Function.comp, monthKey_monthStart]

theorem monthCounts_pairwise (keys : List Nat) (lo n : Nat) :
    ((monthCounts keys lo n).map (fun p => monthKey p.1)).Pairwise (· < ·) := by
  rw [monthCounts_map_key]
  exact (List.pairwise_lt_range n).map (fun t => lo + t)
    (fun a b hab => Nat.add_lt_add_left hab lo)

theorem monthCounts_mem (keys : List Nat) (lo n : Nat) (p : Date × Nat)
    (hp : p ∈ monthCounts keys lo n) :
    p.1.day = 1 ∧ p.1 = monthStart (monthKey p.1) ∧
      p.2 = (keys.filter (fun k => k == monthKey p.1)).length := by
  rcases List.mem_map.mp hp with ⟨t, _, hpt⟩
  subst hpt
  refine ⟨rfl, ?_, ?_⟩ <;> rw [monthKey_monthStart]

theorem monthCounts_month_present (keys : List Nat) (lo n m : Nat)
    (h1 : lo ≤ m) (h2 : m < lo + n) :
    (monthStart m, (keys.filter (fun k => k == m)).length) ∈ monthCounts keys lo n := by
  have hm : m - lo < n := by omega
  have : lo + (m - lo) = m := by omega
  refine List.mem_map.mpr ⟨m - lo, List.mem_range.mpr hm, ?_⟩
  rw [this]

theorem monthlySeries_pairwise (dates : List Date) :
    ((monthlySeries dates).map (fun p => monthKey p.1)).Pairwise (· < ·) := by
  cases dates with
  | nil => simp [monthlySeries]
  | cons d ds =>
    rw [monthlySeries]
    exact monthCounts_pairwise _ _ _

theorem monthlySeries_mem (dates : List Date) (p : Date × Nat)
    (hp : p ∈ monthlySeries dates) :
    p.1.day = 1 ∧ p.1 = monthStart (monthKey p.1) ∧
      p.2 = ((dates.map monthKey).filter (fun k => k == monthKey p.1)).length := by
  cases dates with
  | nil => simp [monthlySeries] at hp
  | cons d ds =>
    rw [monthlySeries] at hp
    exact monthCounts_mem _ _ _ p hp

theorem monthlySeries_month_present (dates : List Date) (x : Date)
    (hx : x ∈ dates) :
    (monthStart (monthKey x),
      ((dates.map monthKey).filter (fun k => k == monthKey x)).length)
      ∈ monthlySeries dates := by
  cases dates with
  | nil => simp at hx
  | cons d ds =>
    rw [monthlySeries]
    apply monthCounts_month_present
    · rcases List.mem_cons.mp hx with hx | hx
      · subst hx
        exact (keyLo_le (monthKey x) (ds.map monthKey)).1
      · exact (keyLo_le (monthKey d) (ds.map monthKey)).2 _
          (List.mem_map_of_mem monthKey hx)
    · have hlo := keyLo_le (monthKey d) (ds.map monthKey)
      have hhi := keyHi_ge (monthKey d) (ds.map monthKey)
      rcases List.mem_cons.mp hx with hx | hx
      · subst hx
        have := hhi.1
        omega
      · have h2 := hhi.2 (monthKey x) (List.mem_map_of_mem monthKey hx)
        have h3 := le_trans hlo.1 hhi.1
        omega

theorem monthlySeries_covers (dates : List Date) (x y : Date)
    (hx : x ∈ dates) (hy : y ∈ dates) (m : Nat)
    (h1 : monthKey x ≤ m) (h2 : m ≤ monthKey y) :
    (monthStart m, ((dates.map monthKey).filter (fun k => k == m)).length)
      ∈ monthlySeries dates := by
  cases dates with
  | nil => simp at hx
  | cons d ds =>
    rw [monthlySeries]
    have hlo := keyLo_le (monthKey d) (ds.map monthKey)
    have hhi := keyHi_ge (monthKey d) (ds.map monthKey)
    have hxlo : keyLo (monthKey d) (ds.map monthKey) ≤ monthKey x := by
      rcases List.mem_cons.mp hx with hx | hx
      · rw [hx]
        exact hlo.1
      · exact hlo.2 _ (List.mem_map_of_mem monthKey hx)
    have hyhi : monthKey y ≤ keyHi (monthKey d) (ds.map monthKey) := by
      rcases List.mem_cons.mp hy with hy | hy
      · rw [hy]
        exact hhi.1
      · exact hhi.2 _ (List.mem_map_of_mem monthKey hy)
    apply monthCounts_month_present
    · omega
    · omega

/-! ## Lemmas about the quantity distribution -/

theorem insertRat_perm (x : Rat) (l : List Rat) : (insertRat x l).Perm (x :: l) := by
  induction l with
  | nil => exact List.Perm.refl _
  | cons y ys ih =>
    rw [insertRat]
    by_cases h : x ≤ y
    · rw [if_pos h]
    · rw [if_neg h]
      exact List.Perm.trans (List.Perm.cons y ih) (List.Perm.swap x y ys)

theorem sortRats_perm (l : List Rat) : (sortRats l).Perm l := by
  induction l with
  | nil => exact List.Perm.refl _
  | cons a t ih =>
    have h1 : sortRats (a :: t) = insertRat a (sortRats t) := rfl
    rw [h1]
    exact List.Perm.trans (insertRat_perm a (sortRats t)) (List.Perm.cons a ih)

theorem indicator_sum_zero (a : Rat) (vs : List Rat) (ha : a ∉ vs) :
    (vs.map (fun v => if v = a then 1 else 0)).sum = 0 := by
  induction vs with
  | nil => rfl
  | cons w ws ih =>
    have hw : ¬w = a := fun h => ha (by simp [h])
    have hws : a ∉ ws := fun h => ha (by simp [h])
    simp [hw, ih hws]

theorem indicator_sum_one (a : Rat) (vs : List Rat) (hnd : vs.Nodup) (ha : a ∈ vs) :
    (vs.map (fun v => if v = a then 1 else 0)).sum = 1 := by
  induction vs with
  | nil => simp at ha
  | cons w ws ih =>
    rcases List.mem_cons.mp ha with hw | hw
    · subst hw
      have hnw : a ∉ ws := (List.nodup_cons.mp hnd).1
      simp [indicator_sum_zero a ws hnw]
    · have hwa : ¬w = a := by
        intro h
        subst h
        exact (List.nodup_cons.mp hnd).1 hw
      simp [hwa, ih (List.nodup_cons.mp hnd).2 hw]

theorem sum_count_eq_length (vs : List Rat) (hnd : vs.Nodup) :
    ∀ l : List Rat, (∀ x ∈ l, x ∈ vs) →
      (vs.map (fun v => l.count v)).sum = l.length := by
  intro l
  induction l with
  | nil => simp
  | cons a t ih =>
    intro hsub
    have ha : a ∈ vs := hsub a (by simp)
    have ht : ∀ x ∈ t, x ∈ vs := fun x hx => hsub x (by simp [hx])
    have hpoint : vs.map (fun v => (a :: t).count v) =
        vs.map (fun v => t.count v + (if v = a then 1 else 0)) := by
      apply List.map_congr_left
      intro v _
      by_cases h : v = a
      · subst h
        rw [List.count_cons_self, if_pos rfl]
      · rw [List.count_cons_of_ne h, if_neg h, Nat.add_zero]
    rw [hpoint, sum_map_add, ih ht, indicator_sum_one a vs hnd ha]
    rfl

theorem qtyDist_sum (qs : List Rat) :
    ((qtyDist qs).map Prod.snd).sum = qs.length := by
  have h1 : (qtyDist qs).map Prod.snd = (sortRats qs.dedup).map (fun v => qs.count v) := by
    simp [qtyDist, List.map_map, Function.comp]
  rw [h1]
  have hperm : ((sortRats qs.dedup).map (fun v => qs.count v)).Perm
      (qs.dedup.map (fun v => qs.count v)) :=
    (sortRats_perm qs.dedup).map _
  rw [hperm.sum_eq]
  exact sum_count_eq_length qs.dedup (List.nodup_dedup qs) qs
    (fun x hx => List.mem_dedup.mpr hx)

/-! ## Concrete fixtures for the time series claims -/

/-- A date parser recognizing the two dayfirst dates of the December to
February example. -/
def parseEx : String → Option Date := fun s =>
  if s = "15/12/2024" then some ⟨2024, 12, 15⟩
  else if s = "10/02/2025" then some ⟨2025, 2, 10⟩ else none

/-- A quantity parser recognizing the value 5. -/
def parseQEx : String → Option Rat := fun s =>
  if s = "5" then some 5 else none

/-- A Sin OC dataset with records in December 2024 and February 2025 and
none in January 2025. -/
def datasetEx : Dataset :=
  ⟨["Fecha Mod.", "Tiene OC"], [["15/12/2024", "Sin OC"], ["10/02/2025", "Sin OC"]]⟩

/-- A Sin OC dataset with one record whose Fecha Mod. value does not parse
while its Fecha Sol. and Cantidad values do. -/
def datasetEx9 : Dataset :=
  ⟨["Fecha Sol.", "Fecha Mod.", "Cantidad", "Tiene OC"],
   [["15/12/2024", "bad", "5", "Sin OC"]]⟩

/-- C6 counterexample: with Sin OC records in December 2024 and February
2025 only, the monthly series still emits a bucket for January 2025 with
count zero, although no surviving record falls in that month, so the
claimed omission of empty buckets fails. The pandas Grouper performs
resample style binning and zero fills interior empty months. -/
theorem c6_zero_bucket_emitted :
    ((⟨2025, 1, 1⟩ : Date), 0) ∈ fmodSeries parseEx datasetEx ∧
    ((survivorsOf parseEx datasetEx "Fecha Mod.").map monthKey).filter
      (fun k => k == monthKey ⟨2025, 1, 1⟩) = [] := by
  decide

/-- C6 amended: the monthly aggregation emits (month start, count) pairs
keyed by the first of month date, ordered strictly chronologically, each
count equal to the number of surviving records of that calendar month;
every surviving record has its month present, and more generally a pair
is emitted for every calendar month lying between the months of any two
surviving records — in particular for every month from the earliest to
the latest surviving record inclusive — with its count, which is zero for
months containing no surviving record, so interior empty months are zero
filled rather than omitted. -/
theorem c6_monthly_buckets (parse : String → Option Date) (d : Dataset)
    (name : String) :
    ((seriesOf parse d name).map (fun p => monthKey p.1)).Pairwise (· < ·) ∧
    (∀ p ∈ seriesOf parse d name, p.1.day = 1 ∧ p.1 = monthStart (monthKey p.1) ∧
      p.2 = (((survivorsOf parse d name).map monthKey).filter
        (fun k => k == monthKey p.1)).length) ∧
    (name ∈ (missingOf d).header → ∀ x ∈ survivorsOf parse d name,
      (monthStart (monthKey x),
        (((survivorsOf parse d name).map monthKey).filter
          (fun k => k == monthKey x)).length) ∈ seriesOf parse d name) ∧
    (name ∈ (missingOf d).header →
      ∀ x ∈ survivorsOf parse d name, ∀ y ∈ survivorsOf parse d name,
      ∀ m : Nat, monthKey x ≤ m → m ≤ monthKey y →
      (monthStart m,
        (((survivorsOf parse d name).map monthKey).filter
          (fun k => k == m)).length) ∈ seriesOf parse d name) := by
  refine ⟨?_, ?_, ?_, ?_⟩
  · by_cases h : name ∈ (missingOf d).header
    · rw [seriesOf, if_pos h]
      exact monthlySeries_pairwise _
    · rw [seriesOf, if_neg h]
      simp
  · intro p hp
    by_cases h : name ∈ (missingOf d).header
    · rw [seriesOf, if_pos h] at hp
      exact monthlySeries_mem _ p hp
    · rw [seriesOf, if_neg h] at hp
      simp at hp
  · intro h x hx
    rw [seriesOf, if_pos h]
    exact monthlySeries_month_present _ x hx
  · intro h x hx y hy m h1 h2
    rw [seriesOf, if_pos h]
    exact monthlySeries_covers _ x y hx hy m h1 h2

/-- Witness for the amended C6: the December 2024 record of the example
produces the bucket (2024-12-01, 1), and the interior month January 2025,
which lies between the two surviving records but contains none, is still
emitted, with count zero. -/
theorem c6_monthly_buckets_witness :
    ((⟨2024, 12, 1⟩ : Date), 1) ∈ fmodSeries parseEx datasetEx ∧
    ((⟨2025, 1, 1⟩ : Date), 0) ∈ fmodSeries parseEx datasetEx := by
  have h := (c6_monthly_buckets parseEx datasetEx "Fecha Mod.").2.2.1 (by decide)
    ⟨2024, 12, 15⟩ (by decide)
  have hz := (c6_monthly_buckets parseEx datasetEx "Fecha Mod.").2.2.2 (by decide)
    ⟨2024, 12, 15⟩ (by decide) ⟨2025, 2, 10⟩ (by decide)
    (monthKey ⟨2025, 1, 1⟩) (by decide) (by decide)
  have heq : ((monthStart (monthKey ⟨2024, 12, 15⟩),
      (((survivorsOf parseEx datasetEx "Fecha Mod.").map monthKey).filter
        (fun k => k == monthKey ⟨2024, 12, 15⟩)).length) : Date × Nat)
      = (⟨2024, 12, 1⟩, 1) := by decide
  have heqz : ((monthStart (monthKey ⟨2025, 1, 1⟩),
      (((survivorsOf parseEx datasetEx "Fecha Mod.").map monthKey).filter
        (fun k => k == monthKey ⟨2025, 1, 1⟩)).length) : Date × Nat)
      = (⟨2025, 1, 1⟩, 0) := by decide
  constructor
  · rw [← heq]
    exact h
  · rw [← heqz]
    exact hz

/-- C9: the analysis section passes the dataset and the filtered view
through untouched (the source mutates only its local copy), and each
aggregation excludes exactly the records whose own field fails coercion:
the total of every emitted series equals the number of Sin OC records
whose own column value coerces, independent of the other columns, so a
record with an unparseable Fecha Mod. still counts in the Fecha Sol. and
Cantidad aggregations. -/
theorem c9_per_aggregation_exclusion (parse : String → Option Date)
    (parseQ : String → Option Rat) (data filtered : Dataset) :
    (analysisBlock parse parseQ data filtered).1 = data ∧
    (analysisBlock parse parseQ data filtered).2.1 = filtered ∧
    ("Fecha Mod." ∈ (missingOf data).header →
      ((fmodSeries parse data).map Prod.snd).sum
        = (survivorsOf parse data "Fecha Mod.").length) ∧
    ("Fecha Sol." ∈ (missingOf data).header →
      ((fsolSeries parse data).map Prod.snd).sum
        = (survivorsOf parse data "Fecha Sol.").length) ∧
    ("Cantidad" ∈ (missingOf data).header →
      ((qtyDistOf parseQ data).map Prod.snd).sum
        = (qtySurvivors parseQ data).length) := by
  refine ⟨rfl, rfl, ?_, ?_, ?_⟩
  · intro h
    rw [fmodSeries, seriesOf, if_pos h]
    exact monthlySeries_sum _
  · intro h
    rw [fsolSeries, seriesOf, if_pos h]
    exact monthlySeries_sum _
  · intro h
    rw [qtyDistOf, if_pos h]
    exact qtyDist_sum _

/-- Witness for C9: for the record whose Fecha Mod. does not parse, the
Fecha Sol. and Cantidad aggregation totals still count every record whose
own field coerces. -/
theorem c9_per_aggregation_exclusion_witness :
    ("Fecha Sol." ∈ (missingOf datasetEx9).header) ∧
    ((fsolSeries parseEx datasetEx9).map Prod.snd).sum
      = (survivorsOf parseEx datasetEx9 "Fecha Sol.").length ∧
    ((fmodSeries parseEx datasetEx9).map Prod.snd).sum
      = (survivorsOf parseEx datasetEx9 "Fecha Mod.").length ∧
    ((qtyDistOf parseQEx datasetEx9).map Prod.snd).sum
      = (qtySurvivors parseQEx datasetEx9).length := by
  have h := c9_per_aggregation_exclusion parseEx parseQEx datasetEx9 datasetEx9
  exact ⟨by decide, h.2.2.2.1 (by decide), h.2.2.1 (by decide), h.2.2.2.2 (by decide)⟩

end Solped
